import Mathlib

/-!
# Verification of the `cards` repository

Shallow embedding of the two source modules of the repository:

* the application script (card hand, play area, pointer gesture state
  machine, lightbox, reset button) — modelled in namespace `Cards`;
* `holographic-effect/holographic.js` (the `HolographicEffect` engine) —
  modelled in namespace `Holo`.

Modelling conventions:

* A card is identified by a stable `id` (its JS object identity).  The
  mutable per-card data the claims are about — the CSS custom properties
  `--i` / `--n` set through `slot.style.setProperty` and the currently
  attached `HolographicEffect` instance — is carried in the `Card` record
  (`styleI`, `styleN`, `holoGen`).
* `new HolographicEffect(...)` is modelled by a global fresh-generation
  counter `nextHolo`: each construction returns the current counter value
  and increments it.  `destroy()` records the destroyed generation in the
  ghost list `destroyed`.
* DOM geometry (`getBoundingClientRect`) is runtime data, not code; it is
  supplied as an oracle (`Geom`): the play-area rect, the hand rect, the
  rect of each card slot and the horizontal midpoint of each card slot.
* At rest the DOM order of the hand's card slots equals the order of the
  `cards` array (the script re-establishes this after every mutation), so
  the model keeps only the `cards` list.  During a drag the dragged slot
  lives on `document.body`; the hand DOM then consists of the non-dragged
  slots in `cards` order plus the placeholder, which is modelled by the
  index `placeholder` of the placeholder among the non-dragged slots.
* Purely presentational effects (CSS classes `hovered`, `dragging`,
  `drop-hover`, `field-full`, `flat`, the floating slot's `left/top/width/
  height` inline styles, button labels) have no bearing on any claim and
  are not modelled, except for the `--i`/`--n` indices which claims C1/C5
  mention.
* `setTimeout`/`clearTimeout` are modelled by timer ids: `pointerdown`
  arms a fresh id, `clearTimeout` removes it from the list of armed
  timers, and a timer-fire event is only deliverable while its id is
  still armed (a cleared timeout never fires).
* Coordinates are integers (pixel positions).  The drag-promotion test
  `Math.sqrt(dx*dx+dy*dy) > DRAG_THRESHOLD` is modelled as
  `dx*dx+dy*dy > DRAG_THRESHOLD^2`, which is equivalent for nonnegative
  reals.  The holographic engine's math, which divides, is modelled over
  `ℚ`.
-/

namespace Cards

/-- Constant `CARD_COUNT` of the application script. -/
def CARD_COUNT : Nat := 6

/-- Constant `MAX_FIELD` of the application script: play-area capacity. -/
def MAX_FIELD : Nat := 3

/-- Constant `HOLD_DELAY` (milliseconds) of the application script. -/
def HOLD_DELAY : Nat := 400

/-- Constant `DRAG_THRESHOLD` (pixels) of the application script. -/
def DRAG_THRESHOLD : Int := 8

/-- A card object: stable identity, attached effect-engine generation, and
the `--i` / `--n` CSS custom properties of its slot. -/
structure Card where
  id : Nat
  holoGen : Nat
  styleI : Nat
  styleN : Nat
deriving DecidableEq, Repr

/-- The `pointerState` session object of the script (`{ card, startX,
startY, holdTimer, isDragging, offsetX, offsetY, placeholder,
originalIndex }`).  The card reference is kept as its id; the placeholder,
once inserted, is kept as its index among the non-dragged hand slots. -/
structure PointerState where
  cardId : Nat
  startX : Int
  startY : Int
  offsetX : Int
  offsetY : Int
  isDragging : Bool
  holdTimer : Nat
  placeholder : Option Nat
  originalIndex : Nat
deriving DecidableEq, Repr

/-- The mutable top-level state of the application script: `cards`,
`playedCards`, `isFan`, `lightboxEffect`, `pointerState`, plus the timer
and effect-engine bookkeeping described in the module comment.
`lightboxOpens` is a ghost counter of `openLightbox` calls and
`lightboxActive` the `active` class of the lightbox. -/
structure AppState where
  cards : List Card
  playedCards : List Card
  isFan : Bool
  lightboxActive : Bool
  lightboxEffect : Option Nat
  lightboxOpens : Nat
  pointerState : Option PointerState
  armedTimers : List Nat
  nextTimer : Nat
  nextHolo : Nat
  destroyed : List Nat
deriving DecidableEq, Repr

/-- A bounding client rect (integer pixel coordinates). -/
structure Rect where
  left : Int
  top : Int
  right : Int
  bottom : Int
deriving DecidableEq, Repr

/-- Geometry oracle: the rects returned by `getBoundingClientRect` for the
play area, the hand container and each card's slot, and each slot's
horizontal midpoint `r.left + r.width / 2`. -/
structure Geom where
  playRect : Rect
  handRect : Rect
  slotRect : Nat → Rect
  midX : Nat → Int

/-- Point-in-rect test used (inlined) by `updateDrag` and `endDrag` for the
play area:
`x >= r.left && x <= r.right && y >= r.top && y <= r.bottom`. -/
def inRect (r : Rect) (x y : Int) : Bool :=
  decide (r.left ≤ x) && decide (x ≤ r.right) &&
  decide (r.top ≤ y) && decide (y ≤ r.bottom)

/-- The enlarged hand-region test of `updateDrag`:
`x` within the hand rect, `y` within `[top - 60, bottom + 20]`. -/
def overHandRegion (r : Rect) (x y : Int) : Bool :=
  decide (r.left ≤ x) && decide (x ≤ r.right) &&
  decide (r.top - 60 ≤ y) && decide (y ≤ r.bottom + 20)

/-- Helper for `reindexHand`: the `forEach` body, setting `--i` to the
running index and `--n` to the hand size for each card. -/
def setIdx (n : Nat) : Nat → List Card → List Card
  | _, [] => []
  | i, c :: rest => { c with styleI := i, styleN := n } :: setIdx n (i + 1) rest

/-- `reindexHand()`: recompute every hand card's `--i` / `--n`. -/
def reindexHand (cs : List Card) : List Card :=
  setIdx cs.length 0 cs

/-- `createCard(index, total)`: a fresh card whose slot carries
`--i = index`, `--n = total`, with a newly constructed effect engine. -/
def createCard (index total gen : Nat) : Card :=
  { id := index, holoGen := gen, styleI := index, styleN := total }

/-- The state after `initHand()` ran at script load: `CARD_COUNT` cards in
hand (the `i`-th construction takes effect-engine generation `i`), empty
play area, fan layout, no lightbox, no session. -/
def initState : AppState :=
  { cards := (List.range CARD_COUNT).map (fun i => createCard i CARD_COUNT i)
    playedCards := []
    isFan := true
    lightboxActive := false
    lightboxEffect := none
    lightboxOpens := 0
    pointerState := none
    armedTimers := []
    nextTimer := 0
    nextHolo := CARD_COUNT
    destroyed := [] }

/-- `toggleBtn` click listener: flip `isFan` (class/label updates are
presentational). -/
def toggleLayout (s : AppState) : AppState :=
  { s with isFan := !s.isFan }

/-- `openLightbox()`: add the `active` class and construct a fresh
`HolographicEffect` for the lightbox card. -/
def openLightbox (s : AppState) : AppState :=
  { s with
    lightboxActive := true
    lightboxEffect := some s.nextHolo
    nextHolo := s.nextHolo + 1
    lightboxOpens := s.lightboxOpens + 1 }

/-- `closeLightbox()`: remove the `active` class; destroy the lightbox
effect instance if present. -/
def closeLightbox (s : AppState) : AppState :=
  { s with
    lightboxActive := false
    lightboxEffect := none
    destroyed := match s.lightboxEffect with
      | some g => s.destroyed ++ [g]
      | none => s.destroyed }

/-- `cleanupPointer(clearTimer)`: optionally `clearTimeout` the session's
hold timer, then null the session.  (The script dereferences
`pointerState.holdTimer` before nulling, so a missing session is a no-op
only because every caller checks `pointerState` first; all reachable calls
have a session, and the guard below keeps the function total.) -/
def cleanupPointer (clearTimer : Bool) (s : AppState) : AppState :=
  match s.pointerState with
  | none => s
  | some ps =>
    { s with
      armedTimers := if clearTimer then s.armedTimers.erase ps.holdTimer
                     else s.armedTimers
      pointerState := none }

/-- Body of the `setTimeout` callback armed by `pointerdown` (the hold
timer): if a session exists and is not dragging, clear the session
(`cleanupPointer(true)`) and then open the lightbox. -/
def holdTimerCallback (s : AppState) : AppState :=
  match s.pointerState with
  | none => s
  | some ps =>
    if ps.isDragging then s
    else openLightbox (cleanupPointer true s)

/-- Delivery of a hold-timer expiry: timer `t` runs its callback only if
it is still armed (a cleared timeout never fires), and firing disarms it
(a timeout fires at most once). -/
def fireTimer (t : Nat) (s : AppState) : AppState :=
  if t ∈ s.armedTimers then
    holdTimerCallback { s with armedTimers := s.armedTimers.erase t }
  else s

/-- `pointerdown` listener on the hand.  `target` is the card id that
`e.target.closest('.hand .card-slot')` resolves to, or `none` when the
event did not hit a card slot.  On a hit, create the session (recording
start point, grab offset against the slot rect, the card's current index)
and arm a fresh hold timer. -/
def pointerdown (target : Option Nat) (x y : Int) (g : Geom) (s : AppState) :
    AppState :=
  match target with
  | none => s
  | some cid =>
    match s.cards.find? (fun c => c.id == cid) with
    | none => s
    | some card =>
      let rect := g.slotRect cid
      let ps : PointerState :=
        { cardId := card.id
          startX := x
          startY := y
          offsetX := x - rect.left
          offsetY := y - rect.top
          isDragging := false
          holdTimer := s.nextTimer
          placeholder := none
          originalIndex := s.cards.findIdx (fun c => c.id == card.id) }
      { s with
        pointerState := some ps
        armedTimers := s.armedTimers ++ [s.nextTimer]
        nextTimer := s.nextTimer + 1 }

/-- `startDrag(e)`: mark the session dragging, destroy the card's effect
engine, and insert the placeholder immediately before the card's slot —
its index among the non-dragged slots is the card's current index.  (The
floating fixed-position styling and the move of the slot to
`document.body` are presentational.)  During every reachable drag the
session's card is an element of `cards`, so the `find?` hits. -/
def startDrag (ps : PointerState) (s : AppState) : AppState :=
  { s with
    destroyed := match s.cards.find? (fun c => c.id == ps.cardId) with
      | some card => s.destroyed ++ [card.holoGen]
      | none => s.destroyed
    pointerState :=
      some { ps with
             isDragging := true
             placeholder := some (s.cards.findIdx (fun c => c.id == ps.cardId)) } }

/-- The placeholder-insertion scan of `updateDrag`: iterate `cards` in
order, skip the dragged card, stop at the first card whose slot midpoint
satisfies `e.clientX < midX` — the result is the placeholder's new index
among the non-dragged slots (list length, i.e. last, when no card
qualifies). -/
def findInsertIdx (draggedId : Nat) (x : Int) (g : Geom) :
    List Card → Nat
  | [] => 0
  | c :: rest =>
    if c.id == draggedId then findInsertIdx draggedId x g rest
    else if x < g.midX c.id then 0
    else 1 + findInsertIdx draggedId x g rest

/-- Modelled from the spec's wording (not from the source, for comparison
with `findInsertIdx`): the placeholder position described as "immediately
before the first non-dragged hand card whose horizontal midpoint strictly
exceeds the pointer's x; last when none qualifies" — i.e. the number of
leading non-dragged cards whose midpoint is at most `x`. -/
def specInsertIdx (d : Nat) (x : Int) (g : Geom) (cs : List Card) : Nat :=
  ((cs.filter (fun c => !(c.id == d))).takeWhile
    (fun c => decide (g.midX c.id ≤ x))).length

/-- `updateDrag(e)`: (floating-slot repositioning and the `drop-hover` /
`field-full` class toggles are presentational); when the pointer is not
over the play-area rect but inside the enlarged hand region, move the
placeholder to the index computed by the midpoint scan. -/
def updateDrag (x y : Int) (g : Geom) (ps : PointerState) (s : AppState) :
    AppState :=
  let overPlay := inRect g.playRect x y
  if !overPlay then
    if overHandRegion g.handRect x y then
      { s with
        pointerState :=
          some { ps with placeholder := some (findInsertIdx ps.cardId x g s.cards) } }
    else s
  else s

/-- DOM insertion of an element at index `n` of a child list (insert
before the `n`-th child, append when past the end). -/
def insertAt (n : Nat) (a : α) : List α → List α
  | [] => [a]
  | x :: xs =>
    match n with
    | 0 => a :: x :: xs
    | k + 1 => x :: insertAt k a xs

/-- `endDrag(e)`: resolve the drop.  Over the play area with room
(`playedCards.length < MAX_FIELD`): remove the card from `cards`
(`cards.splice(cards.indexOf(card), 1)` — the card is a member during
every reachable drag, so this removes its unique occurrence), set its
slot to `--i = 0`, `--n = 1`, append it to `playedCards`, construct a
fresh effect engine for it, and reindex the hand.  Otherwise: put the
card back where the placeholder stood (the script reinserts the slot at
the placeholder's DOM position and then sorts `cards` to match the DOM
order, which yields exactly the insertion of the card at the placeholder
index among the non-dragged slots), construct a fresh effect engine, and
reindex the hand.  Either way the session is cleared without touching the
(already cleared) hold timer. -/
def endDrag (x y : Int) (g : Geom) (ps : PointerState) (s : AppState) :
    AppState :=
  let overPlay := inRect g.playRect x y
  let fieldFull := decide (MAX_FIELD ≤ s.playedCards.length)
  let s' :=
    if overPlay && !fieldFull then
      match s.cards.find? (fun c => c.id == ps.cardId) with
      | some card =>
        let card' := { card with styleI := 0, styleN := 1, holoGen := s.nextHolo }
        { s with
          cards := reindexHand (s.cards.eraseP (fun c => c.id == ps.cardId))
          playedCards := s.playedCards ++ [card']
          nextHolo := s.nextHolo + 1 }
      | none => s
    else
      match s.cards.find? (fun c => c.id == ps.cardId) with
      | some card =>
        let card' := { card with holoGen := s.nextHolo }
        let remaining := s.cards.filter (fun c => !(c.id == ps.cardId))
        { s with
          cards := reindexHand
            (insertAt (ps.placeholder.getD remaining.length) card' remaining)
          nextHolo := s.nextHolo + 1 }
      | none => s
  cleanupPointer false s'

/-- `pointermove` listener on `document`: no session — return; otherwise
compute the displacement from the start point, promote to a drag (clear
the hold timer, `startDrag`) when not yet dragging and the distance
exceeds the threshold, then — re-reading the session as the script does —
run `updateDrag` whenever the session is dragging. -/
def pointermove (x y : Int) (g : Geom) (s : AppState) : AppState :=
  match s.pointerState with
  | none => s
  | some ps =>
    let dx := x - ps.startX
    let dy := y - ps.startY
    let s1 :=
      if !ps.isDragging && decide (DRAG_THRESHOLD * DRAG_THRESHOLD < dx * dx + dy * dy) then
        startDrag ps { s with armedTimers := s.armedTimers.erase ps.holdTimer }
      else s
    match s1.pointerState with
    | some ps1 => if ps1.isDragging then updateDrag x y g ps1 s1 else s1
    | none => s1

/-- `pointerup` listener on `document`: no session — return; a dragging
session resolves through `endDrag`; otherwise a short click clears the
session and its hold timer. -/
def pointerup (x y : Int) (g : Geom) (s : AppState) : AppState :=
  match s.pointerState with
  | none => s
  | some ps =>
    if ps.isDragging then endDrag x y g ps s
    else cleanupPointer true s

/-- The `while (playedCards.length > 0)` loop of the reset listener: pop
the last played card, destroy its effect engine, move its slot back into
the hand (append), push it onto `cards`, and attach a fresh effect
engine. -/
def resetLoop (s : AppState) : AppState :=
  match h : s.playedCards.getLast? with
  | none => s
  | some card =>
    resetLoop
      { s with
        playedCards := s.playedCards.dropLast
        destroyed := s.destroyed ++ [card.holoGen]
        cards := s.cards ++ [{ card with holoGen := s.nextHolo }]
        nextHolo := s.nextHolo + 1 }
termination_by s.playedCards.length
decreasing_by
  have hne : s.playedCards ≠ [] := by
    intro hnil
    rw [hnil] at h
    simp at h
  have hpos : 0 < s.playedCards.length := List.length_pos.mpr hne
  simp only [List.length_dropLast]
  omega

/-- `resetBtn` click listener: run the return-to-hand loop, then one
`reindexHand()`. -/
def resetAll (s : AppState) : AppState :=
  let s' := resetLoop s
  { s' with cards := reindexHand s'.cards }

/-- Closed form of the cards moved back to the hand by one run of the
reset loop, in the order they are appended: the prior `playedCards` in
reverse, the `i`-th move receiving effect-engine generation `g + i`. -/
def movedCards : List Card → Nat → List Card
  | [], _ => []
  | c :: rest, g => { c with holoGen := g } :: movedCards rest (g + 1)

/-- The observable input events of the script: a pointer-down resolved to
a card slot (or not), pointer-move, pointer-up, expiry of an armed hold
timer, and the reset / layout-toggle buttons. -/
inductive Event where
  | down (target : Option Nat) (x y : Int)
  | move (x y : Int)
  | up (x y : Int)
  | fire (t : Nat)
  | reset
  | toggle
deriving DecidableEq, Repr

/-- Dispatch one event to its listener. -/
def step (g : Geom) (s : AppState) : Event → AppState
  | .down t x y => pointerdown t x y g s
  | .move x y => pointermove x y g s
  | .up x y => pointerup x y g s
  | .fire t => fireTimer t s
  | .reset => resetAll s
  | .toggle => toggleLayout s

/-- Run a sequence of events (single-threaded, run-to-completion). -/
def run (g : Geom) (s : AppState) (evs : List Event) : AppState :=
  evs.foldl (step g) s

/-!
### Concrete fixtures

A sample page geometry and sample mid-interaction states, used to
instantiate the universally quantified theorems below on concrete inputs.
The play area sits at the top of the page, the hand at the bottom; hand
slot `i` occupies `[50 i, 50 i + 40] × [200, 260]`.
-/

/-- Sample geometry: play area `[200,400] × [0,100]`, hand
`[0,400] × [200,300]`, slot `i` at `[50 i, 50 i + 40] × [200, 260]`. -/
def geomW : Geom :=
  { playRect := ⟨200, 0, 400, 100⟩
    handRect := ⟨0, 200, 400, 300⟩
    slotRect := fun i => ⟨(i : Int) * 50, 200, (i : Int) * 50 + 40, 260⟩
    midX := fun i => (i : Int) * 50 + 20 }

/-- A dragging session on card 2 (grabbed at `(110, 230)` inside slot 2,
placeholder currently at index 2). -/
def psW : PointerState :=
  { cardId := 2, startX := 110, startY := 230, offsetX := 10, offsetY := 30
    isDragging := true, holdTimer := 0, placeholder := some 2
    originalIndex := 2 }

/-- Mid-drag state: the fresh hand with card 2 lifted (its engine
destroyed by `startDrag`, hold timer cleared). -/
def dragW : AppState :=
  { initState with pointerState := some psW, destroyed := [2], nextTimer := 1 }

/-- Mid-drag state over a full table: cards 3, 4 and 5 already played
(each restyled to the singleton form with a fresh engine), card 2 lifted. -/
def dragFullW : AppState :=
  { cards := [createCard 0 3 0, createCard 1 3 1, createCard 2 3 2]
    playedCards :=
      [{ id := 3, holoGen := 6, styleI := 0, styleN := 1 },
       { id := 4, holoGen := 7, styleI := 0, styleN := 1 },
       { id := 5, holoGen := 8, styleI := 0, styleN := 1 }]
    isFan := true
    lightboxActive := false
    lightboxEffect := none
    lightboxOpens := 0
    pointerState := some psW
    armedTimers := []
    nextTimer := 4
    nextHolo := 9
    destroyed := [3, 4, 5, 2] }

/-- A page geometry in which the play-area rect overlaps the vertically
enlarged hand region: play area `[0,100] × [0,100]`, hand
`[0,100] × [50,150]` (enlarged to `[-10,170]` vertically). -/
def geomC : Geom :=
  { playRect := ⟨0, 0, 100, 100⟩
    handRect := ⟨0, 50, 100, 150⟩
    slotRect := fun i => ⟨(i : Int) * 50, 50, (i : Int) * 50 + 40, 150⟩
    midX := fun i => (i : Int) * 50 + 20 }

/-- A dragging session on card 0 with the placeholder currently at
index 1. -/
def psC : PointerState :=
  { cardId := 0, startX := 10, startY := 60, offsetX := 10, offsetY := 10
    isDragging := true, holdTimer := 0, placeholder := some 1
    originalIndex := 0 }

/-- A two-card mid-drag state for the geometry `geomC`. -/
def overlapDragC : AppState :=
  { cards := [createCard 0 2 0, createCard 1 2 1]
    playedCards := []
    isFan := true
    lightboxActive := false
    lightboxEffect := none
    lightboxOpens := 0
    pointerState := some psC
    armedTimers := []
    nextTimer := 1
    nextHolo := 2
    destroyed := [0] }

end Cards

namespace Holo

/-- Configuration record of `HolographicEffect` (`DEFAULTS` shape).  The
transition-timing strings and the per-channel opacity sets play no role
in any claim and are omitted; option merging (`{ ...DEFAULTS, ...opts }`)
is modelled by passing the already-merged record. -/
structure Opts where
  maxRotation : ℚ
  perspective : ℚ
  glareMultiplier : ℚ
  tilt : Bool
  holographic : Bool
  shimmer : Bool
  glare : Bool
deriving DecidableEq, Repr

/-- The `DEFAULTS` object of `holographic.js`. -/
def DEFAULTS : Opts :=
  { maxRotation := 15
    perspective := 1000
    glareMultiplier := 3 / 2
    tilt := true
    holographic := true
    shimmer := true
    glare := true }

/-- The `_state` record of an instance: tilt angles `rx`,`ry` (degrees)
and the normalized cursor position `mx`,`my` (percent). -/
structure HoloState where
  rx : ℚ
  ry : ℚ
  mx : ℚ
  my : ℚ
  active : Bool
deriving DecidableEq, Repr

/-- The constructor's initial `_state`:
`{ rx: 0, ry: 0, mx: 50, my: 50, active: false }`. -/
def initHoloState : HoloState :=
  { rx := 0, ry := 0, mx := 50, my := 50, active := false }

/-- A bounding client rect as used by `_updateFromPoint` (rational pixel
coordinates: `left`, `top`, `width`, `height`). -/
structure QRect where
  left : ℚ
  top : ℚ
  width : ℚ
  height : ℚ
deriving DecidableEq, Repr

/-- `_updateFromPoint(cx, cy)`: translate the client point into the
element's box, then set
`rx = ((y - halfH) / halfH) * -maxRotation`,
`ry = ((x - halfW) / halfW) * maxRotation`,
`mx = (x / width) * 100`, `my = (y / height) * 100`.
No clamping is applied to `rx` / `ry` (only the glare position is clamped,
in `_render`). -/
def updateFromPoint (o : Opts) (rect : QRect) (cx cy : ℚ) (st : HoloState) :
    HoloState :=
  let x := cx - rect.left
  let y := cy - rect.top
  let halfW := rect.width / 2
  let halfH := rect.height / 2
  { st with
    rx := ((y - halfH) / halfH) * (-o.maxRotation)
    ry := ((x - halfW) / halfW) * o.maxRotation
    mx := x / rect.width * 100
    my := y / rect.height * 100 }

/-- The glare-center clamp of `_render`:
`Math.min(100, Math.max(0, v * glareMultiplier))`. -/
def glareCoord (o : Opts) (v : ℚ) : ℚ :=
  min 100 (max 0 (v * o.glareMultiplier))

/-- A JavaScript value as seen by the constructor's guard: `null`,
`undefined`, an `HTMLElement` (with an identity), or any other value
(carrying its truthiness). -/
inductive JSValue where
  | nullv
  | undef
  | element (id : Nat)
  | other (truthy : Bool)
deriving DecidableEq, Repr

/-- JavaScript truthiness of a `JSValue`. -/
def truthy : JSValue → Bool
  | .nullv => false
  | .undef => false
  | .element _ => true
  | .other t => t

/-- The `el instanceof HTMLElement` test. -/
def isHTMLElement : JSValue → Bool
  | .element _ => true
  | _ => false

/-- Identity of an element value (arbitrary on non-elements, which never
reach the success branch). -/
def elId : JSValue → Nat
  | .element i => i
  | _ => 0

/-- A constructed `HolographicEffect` handle: the element it mounted on,
its merged options, and its initial `_state` (the `_setup` / `_bindEvents`
DOM side effects are presentational). -/
structure Engine where
  el : Nat
  opts : Opts
  state : HoloState
deriving DecidableEq, Repr

/-- The `HolographicEffect` constructor: the guard
`if (!el || !(el instanceof HTMLElement)) throw ...` runs before any
field assignment or setup; on success the instance starts from the
initial `_state`. -/
def construct (el : JSValue) (opts : Opts) : Except String Engine :=
  if !truthy el || !isHTMLElement el then
    .error "HolographicEffect: first argument must be an HTMLElement"
  else
    .ok { el := elId el, opts := opts, state := initHoloState }

end Holo

/-!
## Helper lemmas
-/

namespace Cards

theorem setIdx_length (n i : Nat) (cs : List Card) :
    (setIdx n i cs).length = cs.length := by
  induction cs generalizing i with
  | nil => rfl
  | cons c rest ih => simp [setIdx, ih]

theorem setIdx_map_id (n i : Nat) (cs : List Card) :
    (setIdx n i cs).map (fun c => c.id) = cs.map (fun c => c.id) := by
  induction cs generalizing i with
  | nil => rfl
  | cons c rest ih => simp [setIdx, ih]

theorem setIdx_map_holoGen (n i : Nat) (cs : List Card) :
    (setIdx n i cs).map (fun c => c.holoGen) = cs.map (fun c => c.holoGen) := by
  induction cs generalizing i with
  | nil => rfl
  | cons c rest ih => simp [setIdx, ih]

theorem mem_setIdx (n i : Nat) (cs : List Card) (c' : Card)
    (h : c' ∈ setIdx n i cs) :
    ∃ c ∈ cs, c'.id = c.id ∧ c'.holoGen = c.holoGen := by
  induction cs generalizing i with
  | nil => cases h
  | cons c rest ih =>
    simp only [setIdx, List.mem_cons] at h
    rcases h with h | h
    · exact ⟨c, List.mem_cons_self c rest, by simp [h]⟩
    · rcases ih _ h with ⟨d, hd, h1, h2⟩
      exact ⟨d, List.mem_cons_of_mem c hd, h1, h2⟩

theorem reindexHand_length (cs : List Card) :
    (reindexHand cs).length = cs.length := setIdx_length _ _ _

theorem reindexHand_map_id (cs : List Card) :
    (reindexHand cs).map (fun c => c.id) = cs.map (fun c => c.id) :=
  setIdx_map_id _ _ _

theorem mem_reindexHand (cs : List Card) (c' : Card)
    (h : c' ∈ reindexHand cs) :
    ∃ c ∈ cs, c'.id = c.id ∧ c'.holoGen = c.holoGen :=
  mem_setIdx _ _ _ _ h

theorem insertAt_length (n : Nat) (a : α) (l : List α) :
    (insertAt n a l).length = l.length + 1 := by
  induction l generalizing n with
  | nil => cases n <;> simp [insertAt]
  | cons x xs ih =>
    cases n with
    | zero => rfl
    | succ k => simp [insertAt, ih]

theorem insertAt_map (f : α → β) (n : Nat) (a : α) (l : List α) :
    (insertAt n a l).map f = insertAt n (f a) (l.map f) := by
  induction l generalizing n with
  | nil => cases n <;> simp [insertAt]
  | cons x xs ih =>
    cases n with
    | zero => rfl
    | succ k => simp [insertAt, ih]

theorem insertAt_perm (n : Nat) (a : α) (l : List α) :
    (insertAt n a l).Perm (a :: l) := by
  induction l generalizing n with
  | nil => cases n <;> simp [insertAt]
  | cons x xs ih =>
    cases n with
    | zero => exact List.Perm.refl _
    | succ k =>
      exact ((ih k).cons x).trans (List.Perm.swap a x xs)

theorem map_id_filter (k : Nat) (cs : List Card) :
    (cs.filter (fun c => !(c.id == k))).map (fun c => c.id)
      = (cs.map (fun c => c.id)).filter (fun i => !(i == k)) := by
  induction cs with
  | nil => rfl
  | cons c rest ih =>
    by_cases h : c.id = k
    · simp [List.filter_cons, h, ih]
    · simp [List.filter_cons, h, ih]

theorem eraseP_id_length (k : Nat) (cs : List Card)
    (h : ∃ c ∈ cs, c.id = k) :
    (cs.eraseP (fun c => c.id == k)).length + 1 = cs.length := by
  induction cs with
  | nil => simp at h
  | cons c rest ih =>
    by_cases hc : c.id = k
    · simp [List.eraseP_cons, hc]
    · have h' : ∃ d ∈ rest, d.id = k := by
        rcases h with ⟨d, hd, hdk⟩
        rcases List.mem_cons.mp hd with rfl | hd'
        · exact absurd hdk hc
        · exact ⟨d, hd', hdk⟩
      simp [List.eraseP_cons, hc, ih h']

theorem not_mem_map_id_eraseP (k : Nat) (cs : List Card)
    (hnd : (cs.map (fun c => c.id)).Nodup) :
    k ∉ (cs.eraseP (fun c => c.id == k)).map (fun c => c.id) := by
  induction cs with
  | nil => simp
  | cons c rest ih =>
    simp only [List.map_cons, List.nodup_cons] at hnd
    by_cases hc : c.id = k
    · simpa [List.eraseP_cons, hc] using fun hmem => hnd.1 (hc ▸ hmem)
    · have := ih hnd.2
      simp [List.eraseP_cons, hc, this, Ne.symm hc]

theorem find?_id_eq (k : Nat) (cs : List Card)
    (h : ∃ c ∈ cs, c.id = k) :
    ∃ card, cs.find? (fun c => c.id == k) = some card ∧ card.id = k := by
  induction cs with
  | nil => simp at h
  | cons c rest ih =>
    by_cases hc : c.id = k
    · exact ⟨c, by simp [List.find?_cons, hc], hc⟩
    · have h' : ∃ d ∈ rest, d.id = k := by
        rcases h with ⟨d, hd, hdk⟩
        rcases List.mem_cons.mp hd with rfl | hd'
        · exact absurd hdk hc
        · exact ⟨d, hd', hdk⟩
      rcases ih h' with ⟨card, hfind, hid⟩
      exact ⟨card, by simp [List.find?_cons, hc, hfind], hid⟩

end Cards

/-!
## Claim theorems
-/

namespace Cards

/-- C1: a drag that ends with pointer-up inside the play-area rect while
the table holds fewer than `MAX_FIELD` cards moves the dragged card from
the hand to the table — the table grows by exactly one, the hand shrinks
by exactly one, the moved card is appended to the table with its position
indices reset to `--i = 0`, `--n = 1`, and its id no longer occurs in the
hand. -/
theorem drop_on_table_moves_card (s : AppState) (ps : PointerState)
    (x y : Int) (g : Geom)
    (hps : s.pointerState = some ps) (hdrag : ps.isDragging = true)
    (hover : inRect g.playRect x y = true)
    (hroom : s.playedCards.length < MAX_FIELD)
    (hmem : ∃ c ∈ s.cards, c.id = ps.cardId)
    (hnd : (s.cards.map (fun c => c.id)).Nodup) :
    (pointerup x y g s).playedCards.length = s.playedCards.length + 1 ∧
    (pointerup x y g s).cards.length + 1 = s.cards.length ∧
    (∃ card, (pointerup x y g s).playedCards.getLast? = some card ∧
      card.id = ps.cardId ∧ card.styleI = 0 ∧ card.styleN = 1) ∧
    ps.cardId ∈ s.cards.map (fun c => c.id) ∧
    ps.cardId ∉ (pointerup x y g s).cards.map (fun c => c.id) := by
  obtain ⟨card, hfind, hcid⟩ := find?_id_eq ps.cardId s.cards hmem
  have hff : decide (MAX_FIELD ≤ s.playedCards.length) = false :=
    decide_eq_false_iff_not.mpr (Nat.not_le.mpr hroom)
  have heq : pointerup x y g s =
      { s with
        cards := reindexHand (s.cards.eraseP (fun c => c.id == ps.cardId))
        playedCards := s.playedCards ++
          [{ card with styleI := 0, styleN := 1, holoGen := s.nextHolo }]
        nextHolo := s.nextHolo + 1
        pointerState := none } := by
    simp [pointerup, hps, hdrag, endDrag, hover, hff, hfind, cleanupPointer]
  refine ⟨?_, ?_, ?_, ?_, ?_⟩
  · simp [heq]
  · rw [heq]
    simpa [reindexHand_length] using eraseP_id_length ps.cardId s.cards hmem
  · exact ⟨{ card with styleI := 0, styleN := 1, holoGen := s.nextHolo },
      by simp [heq], hcid, rfl, rfl⟩
  · rcases hmem with ⟨c, hc, hck⟩
    exact List.mem_map.mpr ⟨c, hc, hck⟩
  · rw [heq]
    show ps.cardId ∉ (reindexHand _).map _
    rw [reindexHand_map_id]
    exact not_mem_map_id_eraseP ps.cardId s.cards hnd

/-- C1 witness: dropping card 2 at `(300, 50)` — inside the sample play
area — from the fresh six-card hand. -/
theorem drop_on_table_moves_card_witness :
    (pointerup 300 50 geomW dragW).playedCards.length
      = dragW.playedCards.length + 1 ∧
    (pointerup 300 50 geomW dragW).cards.length + 1 = dragW.cards.length ∧
    (∃ card, (pointerup 300 50 geomW dragW).playedCards.getLast? = some card ∧
      card.id = psW.cardId ∧ card.styleI = 0 ∧ card.styleN = 1) ∧
    psW.cardId ∈ dragW.cards.map (fun c => c.id) ∧
    psW.cardId ∉ (pointerup 300 50 geomW dragW).cards.map (fun c => c.id) :=
  drop_on_table_moves_card dragW psW 300 50 geomW (by decide) (by decide)
    (by decide) (by decide) (by decide) (by decide)

/-- C2: a drag that ends with pointer-up inside the play-area rect while
the table already holds `MAX_FIELD` cards leaves the table unchanged and
reinserts the dragged card into the hand at the last computed placeholder
index. -/
theorem drop_on_full_table_returns_card (s : AppState) (ps : PointerState)
    (x y : Int) (g : Geom) (k : Nat)
    (hps : s.pointerState = some ps) (hdrag : ps.isDragging = true)
    (hover : inRect g.playRect x y = true)
    (hfull : s.playedCards.length = MAX_FIELD)
    (hph : ps.placeholder = some k)
    (hmem : ∃ c ∈ s.cards, c.id = ps.cardId) :
    (pointerup x y g s).playedCards = s.playedCards ∧
    (pointerup x y g s).cards.map (fun c => c.id)
      = insertAt k ps.cardId
          ((s.cards.map (fun c => c.id)).filter (fun i => !(i == ps.cardId))) := by
  obtain ⟨card, hfind, hcid⟩ := find?_id_eq ps.cardId s.cards hmem
  have hff : decide (MAX_FIELD ≤ s.playedCards.length) = true := by
    simp [hfull]
  have heq : pointerup x y g s =
      { s with
        cards := reindexHand (insertAt k { card with holoGen := s.nextHolo }
          (s.cards.filter (fun c => !(c.id == ps.cardId))))
        nextHolo := s.nextHolo + 1
        pointerState := none } := by
    simp [pointerup, hps, hdrag, endDrag, hover, hff, hfind, hph, cleanupPointer]
  refine ⟨by simp [heq], ?_⟩
  rw [heq]
  show (reindexHand _).map _ = _
  rw [reindexHand_map_id, insertAt_map, map_id_filter]
  simp [hcid]

/-- C2 witness: releasing card 2 over the sample play area while cards 3,
4 and 5 occupy it returns card 2 to the hand at placeholder index 2. -/
theorem drop_on_full_table_returns_card_witness :
    (pointerup 300 50 geomW dragFullW).playedCards = dragFullW.playedCards ∧
    (pointerup 300 50 geomW dragFullW).cards.map (fun c => c.id)
      = insertAt 2 psW.cardId
          ((dragFullW.cards.map (fun c => c.id)).filter
            (fun i => !(i == psW.cardId))) :=
  drop_on_full_table_returns_card dragFullW psW 300 50 geomW 2 (by decide)
    (by decide) (by decide) (by decide) (by decide) (by decide)

end Cards

namespace Cards

theorem cleanupPointer_playedCards (b : Bool) (s : AppState) :
    (cleanupPointer b s).playedCards = s.playedCards := by
  unfold cleanupPointer
  split <;> rfl

theorem cleanupPointer_cards (b : Bool) (s : AppState) :
    (cleanupPointer b s).cards = s.cards := by
  unfold cleanupPointer
  split <;> rfl

theorem openLightbox_playedCards (s : AppState) :
    (openLightbox s).playedCards = s.playedCards := rfl

theorem holdTimerCallback_playedCards (s : AppState) :
    (holdTimerCallback s).playedCards = s.playedCards := by
  unfold holdTimerCallback
  split
  · rfl
  · split
    · rfl
    · rw [openLightbox_playedCards, cleanupPointer_playedCards]

theorem fireTimer_playedCards (t : Nat) (s : AppState) :
    (fireTimer t s).playedCards = s.playedCards := by
  unfold fireTimer
  split
  · rw [holdTimerCallback_playedCards]
  · rfl

theorem startDrag_playedCards (ps : PointerState) (s : AppState) :
    (startDrag ps s).playedCards = s.playedCards := rfl

theorem updateDrag_playedCards (x y : Int) (g : Geom) (ps : PointerState)
    (s : AppState) : (updateDrag x y g ps s).playedCards = s.playedCards := by
  unfold updateDrag
  dsimp only
  split
  · split <;> rfl
  · rfl

theorem pointerdown_playedCards (t : Option Nat) (x y : Int) (g : Geom)
    (s : AppState) : (pointerdown t x y g s).playedCards = s.playedCards := by
  unfold pointerdown
  split
  · rfl
  · split <;> rfl

theorem pointerdown_cards (t : Option Nat) (x y : Int) (g : Geom)
    (s : AppState) : (pointerdown t x y g s).cards = s.cards := by
  unfold pointerdown
  split
  · rfl
  · split <;> rfl

theorem pointermove_playedCards (x y : Int) (g : Geom) (s : AppState) :
    (pointermove x y g s).playedCards = s.playedCards := by
  unfold pointermove
  split
  · rfl
  next ps heq =>
    have htail : ∀ u : AppState, u.playedCards = s.playedCards →
        (match u.pointerState with
         | some ps1 => if ps1.isDragging then updateDrag x y g ps1 u else u
         | none => u).playedCards = s.playedCards := by
      intro u hu
      split
      · split
        · rw [updateDrag_playedCards]; exact hu
        · exact hu
      · exact hu
    apply htail
    split
    · rw [startDrag_playedCards]
    · rfl

/-- Key step for the capacity invariant: `endDrag` only appends to
`playedCards` under the `!fieldFull` guard. -/
theorem endDrag_playedCards_le (x y : Int) (g : Geom) (ps : PointerState)
    (s : AppState) (h : s.playedCards.length ≤ MAX_FIELD) :
    (endDrag x y g ps s).playedCards.length ≤ MAX_FIELD := by
  unfold endDrag
  rw [cleanupPointer_playedCards]
  dsimp only
  split
  next hcond =>
    split
    · have hlt : s.playedCards.length < MAX_FIELD := by
        simp only [Bool.and_eq_true, Bool.not_eq_true', decide_eq_false_iff_not,
          Nat.not_le] at hcond
        exact hcond.2
      simp only [List.length_append, List.length_cons, List.length_nil]
      omega
    · exact h
  · split
    · exact h
    · exact h

theorem pointerup_playedCards_le (x y : Int) (g : Geom) (s : AppState)
    (h : s.playedCards.length ≤ MAX_FIELD) :
    (pointerup x y g s).playedCards.length ≤ MAX_FIELD := by
  unfold pointerup
  split
  · exact h
  · split
    · exact endDrag_playedCards_le _ _ _ _ _ h
    · rw [cleanupPointer_playedCards]; exact h

/-- Closed form of the reset loop: pops the played cards from the end,
appending each to the hand with consecutive fresh engine generations. -/
theorem resetLoop_eq (s : AppState) :
    resetLoop s =
      { s with
        cards := s.cards ++ movedCards s.playedCards.reverse s.nextHolo
        playedCards := []
        nextHolo := s.nextHolo + s.playedCards.length
        destroyed := s.destroyed ++
          s.playedCards.reverse.map (fun c => c.holoGen) } := by
  generalize hpl : s.playedCards = pl
  induction pl using List.reverseRecOn generalizing s with
  | nil =>
    rw [resetLoop]
    split
    · cases s
      simp_all [movedCards]
    · next card hsome =>
        rw [hpl] at hsome
        simp at hsome
  | append_singleton l a ih =>
    rw [resetLoop]
    split
    · next hnone =>
        rw [hpl] at hnone
        simp at hnone
    · next card hsome =>
        rw [hpl, List.getLast?_concat] at hsome
        cases hsome
        rw [ih _ (by simp [hpl])]
        simp only [hpl, List.dropLast_concat]
        simp [movedCards, List.length_append]
        omega

theorem resetAll_eq (s : AppState) :
    resetAll s =
      { s with
        cards := reindexHand
          (s.cards ++ movedCards s.playedCards.reverse s.nextHolo)
        playedCards := []
        nextHolo := s.nextHolo + s.playedCards.length
        destroyed := s.destroyed ++
          s.playedCards.reverse.map (fun c => c.holoGen) } := by
  unfold resetAll
  rw [resetLoop_eq]

theorem movedCards_map_id (l : List Card) (gen : Nat) :
    (movedCards l gen).map (fun c => c.id) = l.map (fun c => c.id) := by
  induction l generalizing gen with
  | nil => rfl
  | cons c rest ih => simp [movedCards, ih]

theorem mem_movedCards_ge (l : List Card) (gen : Nat) (c' : Card)
    (h : c' ∈ movedCards l gen) : gen ≤ c'.holoGen := by
  induction l generalizing gen with
  | nil => cases h
  | cons c rest ih =>
    rcases List.mem_cons.mp h with rfl | h'
    · simp
    · exact le_trans (Nat.le_succ gen) (ih _ h')

theorem resetAll_playedCards (s : AppState) :
    (resetAll s).playedCards = [] := by
  rw [resetAll_eq]

theorem step_playedCards_le (g : Geom) (e : Event) (s : AppState)
    (h : s.playedCards.length ≤ MAX_FIELD) :
    (step g s e).playedCards.length ≤ MAX_FIELD := by
  cases e with
  | down t x y =>
    show (pointerdown t x y g s).playedCards.length ≤ MAX_FIELD
    rw [pointerdown_playedCards]; exact h
  | move x y =>
    show (pointermove x y g s).playedCards.length ≤ MAX_FIELD
    rw [pointermove_playedCards]; exact h
  | up x y => exact pointerup_playedCards_le x y g s h
  | fire t =>
    show (fireTimer t s).playedCards.length ≤ MAX_FIELD
    rw [fireTimer_playedCards]; exact h
  | reset =>
    show (resetAll s).playedCards.length ≤ MAX_FIELD
    rw [resetAll_playedCards]
    exact Nat.zero_le _
  | toggle => exact h

theorem run_playedCards_le (g : Geom) (evs : List Event) (s : AppState)
    (h : s.playedCards.length ≤ MAX_FIELD) :
    (run g s evs).playedCards.length ≤ MAX_FIELD := by
  induction evs generalizing s with
  | nil => exact h
  | cons e rest ih => exact ih _ (step_playedCards_le g e s h)

/-- C3: the enforced play-area capacity constant is 3, and the invariant
`|playedCards| ≤ MAX_FIELD` is preserved by every event sequence the
script handles (pointer events, timer expiries, reset, layout toggle) —
in particular by the drop resolution, the only operation that appends to
the table. -/
theorem table_capacity_invariant (g : Geom) (evs : List Event) (s : AppState)
    (hinv : s.playedCards.length ≤ MAX_FIELD) :
    MAX_FIELD = 3 ∧ (run g s evs).playedCards.length ≤ MAX_FIELD :=
  ⟨rfl, run_playedCards_le g evs s hinv⟩

/-- C3 witness: the invariant holds after a full drag-and-drop trace from
the initial state. -/
theorem table_capacity_invariant_witness :
    MAX_FIELD = 3 ∧
    (run geomW initState
      [.down (some 2) 110 230, .move 300 50, .up 300 50]).playedCards.length
        ≤ MAX_FIELD :=
  table_capacity_invariant geomW
    [.down (some 2) 110 230, .move 300 50, .up 300 50] initState (by decide)

end Cards

namespace Cards

/-- C10: one click of the reset button yields a hand consisting of the
prior hand order followed by the prior table cards in reverse play order
(the loop pops from the end of `playedCards` and appends to the hand). -/
theorem resetAll_hand_order (s : AppState) :
    (resetAll s).cards.map (fun c => c.id)
      = s.cards.map (fun c => c.id)
        ++ (s.playedCards.map (fun c => c.id)).reverse := by
  rw [resetAll_eq]
  show (reindexHand _).map _ = _
  rw [reindexHand_map_id]
  simp [movedCards_map_id, List.map_reverse]

/-- C8: reset is a no-op on an empty table (given the hand's indices are
consistent, which holds at every rest state); in general it empties the
table, the new hand's ids are a permutation of the prior hand plus table
ids, every prior table card's engine generation is recorded destroyed,
and every card that came back from the table carries an engine generation
that is fresh — distinct from every pre-reset generation. -/
theorem resetAll_moves_table_to_hand (s : AppState)
    (hre : reindexHand s.cards = s.cards)
    (hnd : ((s.cards ++ s.playedCards).map (fun c => c.id)).Nodup)
    (hgen : ∀ c ∈ s.cards ++ s.playedCards, c.holoGen < s.nextHolo) :
    (s.playedCards = [] → resetAll s = s) ∧
    (resetAll s).playedCards = [] ∧
    ((resetAll s).cards.map (fun c => c.id)).Perm
      ((s.cards ++ s.playedCards).map (fun c => c.id)) ∧
    (∀ c ∈ s.playedCards, c.holoGen ∈ (resetAll s).destroyed) ∧
    (∀ c' ∈ (resetAll s).cards,
      c'.id ∈ s.playedCards.map (fun c => c.id) →
      s.nextHolo ≤ c'.holoGen ∧
        ∀ c ∈ s.cards ++ s.playedCards, c'.holoGen ≠ c.holoGen) := by
  refine ⟨?_, resetAll_playedCards s, ?_, ?_, ?_⟩
  · intro hemp
    rw [resetAll_eq]
    cases s
    simp_all [movedCards]
  · have hmap : (resetAll s).cards.map (fun c => c.id)
        = s.cards.map (fun c => c.id)
          ++ (s.playedCards.map (fun c => c.id)).reverse := by
      rw [resetAll_eq]
      show (reindexHand _).map _ = _
      rw [reindexHand_map_id]
      simp [movedCards_map_id, List.map_reverse]
    rw [hmap, List.map_append]
    exact List.Perm.append_left _ (List.reverse_perm _)
  · intro c hc
    rw [resetAll_eq]
    show c.holoGen ∈ s.destroyed ++ _
    rw [List.mem_append]
    exact Or.inr (List.mem_map.mpr ⟨c, List.mem_reverse.mpr hc, rfl⟩)
  · intro c' hc' hid
    rw [resetAll_eq] at hc'
    obtain ⟨c0, hc0, hid0, hgen0⟩ := mem_reindexHand _ _ hc'
    rcases List.mem_append.mp hc0 with hl | hr
    · exfalso
      rw [List.map_append] at hnd
      have hdisj := (List.nodup_append.mp hnd).2.2
      exact hdisj (List.mem_map.mpr ⟨c0, hl, rfl⟩) (hid0 ▸ hid)
    · have hge : s.nextHolo ≤ c0.holoGen := mem_movedCards_ge _ _ _ hr
      have hge' : s.nextHolo ≤ c'.holoGen := hgen0 ▸ hge
      refine ⟨hge', fun c hc => ?_⟩
      have := hgen c hc
      omega

/-- C8 witness: resetting the sample state with cards 3, 4 and 5 on the
table. -/
theorem resetAll_moves_table_to_hand_witness :
    ((dragFullW.playedCards = [] → resetAll dragFullW = dragFullW) ∧
    (resetAll dragFullW).playedCards = [] ∧
    ((resetAll dragFullW).cards.map (fun c => c.id)).Perm
      ((dragFullW.cards ++ dragFullW.playedCards).map (fun c => c.id)) ∧
    (∀ c ∈ dragFullW.playedCards,
      c.holoGen ∈ (resetAll dragFullW).destroyed) ∧
    (∀ c' ∈ (resetAll dragFullW).cards,
      c'.id ∈ dragFullW.playedCards.map (fun c => c.id) →
      dragFullW.nextHolo ≤ c'.holoGen ∧
        ∀ c ∈ dragFullW.cards ++ dragFullW.playedCards,
          c'.holoGen ≠ c.holoGen)) :=
  resetAll_moves_table_to_hand dragFullW (by decide) (by decide) (by decide)

end Cards

namespace Cards

/-- C4: a pointer-down on a hand card followed (with no movement and no
pointer-up) by expiry of the hold timer opens the preview exactly once —
the open counter increments by one, a second delivery of the same timer
is a no-op since the timer is disarmed — and the activation happens on a
state whose session has already been cleared: the expiry factors as
`openLightbox` applied after the session was set to `none` with the
preview not yet opened. -/
theorem hold_opens_preview_once (s : AppState) (cid : Nat) (x y : Int)
    (g : Geom)
    (hfind : (s.cards.find? (fun c => c.id == cid)).isSome = true)
    (htmr : ∀ t ∈ s.armedTimers, t < s.nextTimer) :
    (fireTimer s.nextTimer (pointerdown (some cid) x y g s)).lightboxOpens
      = s.lightboxOpens + 1 ∧
    (fireTimer s.nextTimer (pointerdown (some cid) x y g s)).lightboxActive
      = true ∧
    (fireTimer s.nextTimer (pointerdown (some cid) x y g s)).pointerState
      = none ∧
    (∃ smid, fireTimer s.nextTimer (pointerdown (some cid) x y g s)
        = openLightbox smid ∧
      smid.pointerState = none ∧ smid.lightboxOpens = s.lightboxOpens) ∧
    fireTimer s.nextTimer
        (fireTimer s.nextTimer (pointerdown (some cid) x y g s))
      = fireTimer s.nextTimer (pointerdown (some cid) x y g s) := by
  obtain ⟨card, hfindeq⟩ := Option.isSome_iff_exists.mp hfind
  have hnotmem : s.nextTimer ∉ s.armedTimers := fun hmem =>
    Nat.lt_irrefl _ (htmr _ hmem)
  have hs2 : fireTimer s.nextTimer (pointerdown (some cid) x y g s)
      = openLightbox
          { s with pointerState := none, nextTimer := s.nextTimer + 1 } := by
    simp [pointerdown, hfindeq, fireTimer, holdTimerCallback, cleanupPointer,
      List.erase_append_right _ hnotmem, List.erase_cons_head,
      List.erase_of_not_mem hnotmem]
  refine ⟨by rw [hs2]; rfl, by rw [hs2]; rfl, by rw [hs2]; rfl,
    ⟨{ s with pointerState := none, nextTimer := s.nextTimer + 1 },
      hs2, rfl, rfl⟩, ?_⟩
  rw [hs2]
  show fireTimer s.nextTimer _ = _
  rw [fireTimer, if_neg]
  simpa [openLightbox] using hnotmem

/-- C4 witness: holding card 0 from the initial state. -/
theorem hold_opens_preview_once_witness :
    (fireTimer initState.nextTimer
        (pointerdown (some 0) 10 210 geomW initState)).lightboxOpens
      = initState.lightboxOpens + 1 ∧
    (fireTimer initState.nextTimer
        (pointerdown (some 0) 10 210 geomW initState)).lightboxActive
      = true ∧
    (fireTimer initState.nextTimer
        (pointerdown (some 0) 10 210 geomW initState)).pointerState
      = none ∧
    (∃ smid, fireTimer initState.nextTimer
        (pointerdown (some 0) 10 210 geomW initState)
        = openLightbox smid ∧
      smid.pointerState = none ∧
      smid.lightboxOpens = initState.lightboxOpens) ∧
    fireTimer initState.nextTimer
        (fireTimer initState.nextTimer
          (pointerdown (some 0) 10 210 geomW initState))
      = fireTimer initState.nextTimer
          (pointerdown (some 0) 10 210 geomW initState) :=
  hold_opens_preview_once initState 0 10 210 geomW (by decide) (by decide)

theorem pointerdown_session (t : Option Nat) (x y : Int) (g : Geom)
    (s : AppState) :
    (pointerdown t x y g s).pointerState = s.pointerState ∨
    ∃ ps, (pointerdown t x y g s).pointerState = some ps ∧
      ps.startX = x ∧ ps.startY = y ∧ ps.isDragging = false := by
  unfold pointerdown
  split
  · exact Or.inl rfl
  · split
    · exact Or.inl rfl
    · exact Or.inr ⟨_, rfl, rfl, rfl, rfl⟩

theorem pointermove_none_noop (xm ym : Int) (g : Geom) (u : AppState)
    (hps : u.pointerState = none) : pointermove xm ym g u = u := by
  simp [pointermove, hps]

/-- A pointer-move whose squared displacement from the session's start
point stays within `DRAG_THRESHOLD²` leaves a not-yet-dragging session —
and the whole state — untouched. -/
theorem pointermove_small_noop (xm ym : Int) (g : Geom) (u : AppState)
    (ps : PointerState) (hps : u.pointerState = some ps)
    (hnd : ps.isDragging = false)
    (hsm : (xm - ps.startX) * (xm - ps.startX) +
        (ym - ps.startY) * (ym - ps.startY)
      ≤ DRAG_THRESHOLD * DRAG_THRESHOLD) :
    pointermove xm ym g u = u := by
  have hdec : decide (DRAG_THRESHOLD * DRAG_THRESHOLD <
      (xm - ps.startX) * (xm - ps.startX) +
      (ym - ps.startY) * (ym - ps.startY)) = false :=
    decide_eq_false_iff_not.mpr (not_lt.mpr hsm)
  simp [pointermove, hps, hnd, hdec]

theorem run_moves_noop (g : Geom) (u : AppState) (x0 y0 : Int)
    (moves : List (Int × Int))
    (hses : u.pointerState = none ∨ ∃ ps, u.pointerState = some ps ∧
      ps.startX = x0 ∧ ps.startY = y0 ∧ ps.isDragging = false)
    (hsmall : ∀ m ∈ moves,
      (m.1 - x0) * (m.1 - x0) + (m.2 - y0) * (m.2 - y0)
        ≤ DRAG_THRESHOLD * DRAG_THRESHOLD) :
    run g u (moves.map (fun m => Event.move m.1 m.2)) = u := by
  induction moves with
  | nil => rfl
  | cons m rest ih =>
    have hstep : step g u (Event.move m.1 m.2) = u := by
      rcases hses with hnone | ⟨ps, hps, hx, hy, hnd⟩
      · exact pointermove_none_noop m.1 m.2 g u hnone
      · refine pointermove_small_noop m.1 m.2 g u ps hps hnd ?_
        rw [hx, hy]
        exact hsmall m (List.mem_cons_self m rest)
    show run g (step g u (Event.move m.1 m.2)) (rest.map _) = u
    rw [hstep]
    exact ih (fun m hm => hsmall m (List.mem_cons_of_mem _ hm))

/-- C5: a pure tap — pointer-down, any pointer-moves whose displacement
from the start never exceeds the drag threshold, then pointer-up before
the hold timer fires (no timer-expiry event in the trace) — leaves both
the hand list and the table list exactly as they were. -/
theorem tap_is_noop (s : AppState) (tgt : Option Nat) (x0 y0 : Int)
    (moves : List (Int × Int)) (x1 y1 : Int) (g : Geom)
    (hidle : s.pointerState = none)
    (hsmall : ∀ m ∈ moves,
      (m.1 - x0) * (m.1 - x0) + (m.2 - y0) * (m.2 - y0)
        ≤ DRAG_THRESHOLD * DRAG_THRESHOLD) :
    (run g s (Event.down tgt x0 y0 ::
        (moves.map (fun m => Event.move m.1 m.2) ++ [Event.up x1 y1]))).cards
      = s.cards ∧
    (run g s (Event.down tgt x0 y0 ::
        (moves.map (fun m => Event.move m.1 m.2)
          ++ [Event.up x1 y1]))).playedCards
      = s.playedCards := by
  have hses : (pointerdown tgt x0 y0 g s).pointerState = none ∨
      ∃ ps, (pointerdown tgt x0 y0 g s).pointerState = some ps ∧
        ps.startX = x0 ∧ ps.startY = y0 ∧ ps.isDragging = false := by
    rcases pointerdown_session tgt x0 y0 g s with h | h
    · exact Or.inl (h.trans hidle)
    · exact Or.inr h
  have hmoves : run g (pointerdown tgt x0 y0 g s)
      (moves.map (fun m => Event.move m.1 m.2)) = pointerdown tgt x0 y0 g s :=
    run_moves_noop g _ x0 y0 moves hses hsmall
  have hfull : run g s (Event.down tgt x0 y0 ::
      (moves.map (fun m => Event.move m.1 m.2) ++ [Event.up x1 y1]))
      = pointerup x1 y1 g (pointerdown tgt x0 y0 g s) := by
    show run g (step g s (Event.down tgt x0 y0))
        (moves.map (fun m => Event.move m.1 m.2) ++ [Event.up x1 y1])
      = _
    unfold run
    rw [List.foldl_append]
    show run g (run g (pointerdown tgt x0 y0 g s)
        (moves.map (fun m => Event.move m.1 m.2))) [Event.up x1 y1] = _
    rw [hmoves]
    rfl
  have hupc : (pointerup x1 y1 g (pointerdown tgt x0 y0 g s)).cards
      = (pointerdown tgt x0 y0 g s).cards := by
    rcases hses with hnone | ⟨ps, hps, _, _, hnd⟩
    · simp [pointerup, hnone]
    · simp [pointerup, hps, hnd, cleanupPointer_cards]
  have hupp : (pointerup x1 y1 g (pointerdown tgt x0 y0 g s)).playedCards
      = (pointerdown tgt x0 y0 g s).playedCards := by
    rcases hses with hnone | ⟨ps, hps, _, _, hnd⟩
    · simp [pointerup, hnone]
    · simp [pointerup, hps, hnd, cleanupPointer_playedCards]
  rw [hfull]
  exact ⟨hupc.trans (pointerdown_cards tgt x0 y0 g s),
    hupp.trans (pointerdown_playedCards tgt x0 y0 g s)⟩

/-- C5 witness: a tap on card 1 with one 3-by-4-pixel move (squared
displacement 25 ≤ 64). -/
theorem tap_is_noop_witness :
    (run geomW initState (Event.down (some 1) 60 230 ::
        ([((63 : Int), (234 : Int))].map (fun m => Event.move m.1 m.2)
          ++ [Event.up 63 234]))).cards = initState.cards ∧
    (run geomW initState (Event.down (some 1) 60 230 ::
        ([((63 : Int), (234 : Int))].map (fun m => Event.move m.1 m.2)
          ++ [Event.up 63 234]))).playedCards = initState.playedCards :=
  tap_is_noop initState (some 1) 60 230 [(63, 234)] 63 234 geomW
    (by decide) (by decide)

end Cards

namespace Cards

/-- C6 counterexample: the claim asserts the placeholder moves for every
pointer position inside the (vertically enlarged) hand region, but
`updateDrag` skips the hand logic whenever the pointer is also inside the
play-area rect.  With geometry `geomC` the point `(50, 60)` lies in both
regions; the midpoint scan says the placeholder should move to index 0,
yet the state — placeholder still at index 1 — is left untouched. -/
theorem updateDrag_table_overlap_counterexample :
    psC.isDragging = true ∧
    overHandRegion geomC.handRect 50 60 = true ∧
    findInsertIdx psC.cardId 50 geomC overlapDragC.cards = 0 ∧
    updateDrag 50 60 geomC psC overlapDragC = overlapDragC ∧
    psC.placeholder = some 1 := by decide

/-- Refinement: the source's scan (`findInsertIdx`, iterating the cards
array and stopping at the first non-dragged card with `x < midX`) equals
the spec's description (`specInsertIdx`, counting the leading non-dragged
cards whose midpoint does not exceed `x`). -/
theorem findInsertIdx_eq_spec (d : Nat) (x : Int) (g : Geom)
    (cs : List Card) :
    findInsertIdx d x g cs = specInsertIdx d x g cs := by
  induction cs with
  | nil => rfl
  | cons c rest ih =>
    by_cases hd : c.id = d
    · simp [findInsertIdx, specInsertIdx, hd, List.filter_cons, ih]
    · by_cases hx : x < g.midX c.id
      · simp [findInsertIdx, specInsertIdx, hd, hx, List.filter_cons,
          List.takeWhile_cons, not_le.mpr hx]
      · simp [findInsertIdx, specInsertIdx, hd, hx, List.filter_cons,
          List.takeWhile_cons, not_lt.mp hx, ih]
        omega

/-- C6 (amended): during a drag, for every pointer position inside the
vertically enlarged hand region AND not inside the play-area rect,
`updateDrag` moves the placeholder to the position immediately before the
first non-dragged hand card whose horizontal midpoint strictly exceeds
the pointer's x — last when no card qualifies. -/
theorem updateDrag_places_placeholder (x y : Int) (g : Geom)
    (ps : PointerState) (s : AppState)
    (hplay : inRect g.playRect x y = false)
    (hhand : overHandRegion g.handRect x y = true) :
    (updateDrag x y g ps s).pointerState
      = some { ps with placeholder := some (specInsertIdx ps.cardId x g s.cards) } := by
  simp [updateDrag, hplay, hhand, findInsertIdx_eq_spec]

/-- C6 witness: dragging card 2 over the hand at `x = 110` in the sample
geometry. -/
theorem updateDrag_places_placeholder_witness :
    (updateDrag 110 230 geomW psW dragW).pointerState
      = some { psW with
               placeholder := some (specInsertIdx psW.cardId 110 geomW dragW.cards) } :=
  updateDrag_places_placeholder 110 230 geomW psW dragW (by decide) (by decide)

end Cards

namespace Holo

/-- C7 counterexample: `_updateFromPoint` applies no clamping to the
rotation angles — for the pointer at `(200, 200)` against a
`100 × 100` element at the origin (coordinates a touch-move can deliver,
since touch events keep targeting the element after the finger leaves its
bounds), the computed X rotation is `-45°`, exceeding the configured
`maxRotation = 15` in magnitude. -/
theorem updateFromPoint_exceeds_max_counterexample :
    DEFAULTS.maxRotation = 15 ∧
    ¬ |(updateFromPoint DEFAULTS ⟨0, 0, 100, 100⟩ 200 200
          initHoloState).rx| ≤ DEFAULTS.maxRotation := by
  constructor
  · rfl
  · norm_num [updateFromPoint, DEFAULTS, initHoloState]

/-- C7 (amended): for every pointer position within the element's bounds,
the rotation angles computed by `_updateFromPoint` are proportional to
the offset from the element's center and never exceed `maxRotation` in
magnitude (bounded by the proportional formula — there is no explicit
clamp); at the exact center both rotations are 0, and at the top-left
corner the X rotation is `+maxRotation` (vertical offset, sign inverted)
and the Y rotation is `-maxRotation` (horizontal offset). -/
theorem updateFromPoint_rotation_spec (o : Opts) (r : QRect) (cx cy : ℚ)
    (st : HoloState)
    (hw : 0 < r.width) (hh : 0 < r.height) (hmax : 0 ≤ o.maxRotation)
    (hx0 : r.left ≤ cx) (hx1 : cx ≤ r.left + r.width)
    (hy0 : r.top ≤ cy) (hy1 : cy ≤ r.top + r.height) :
    |(updateFromPoint o r cx cy st).rx| ≤ o.maxRotation ∧
    |(updateFromPoint o r cx cy st).ry| ≤ o.maxRotation ∧
    (cy = r.top + r.height / 2 → (updateFromPoint o r cx cy st).rx = 0) ∧
    (cx = r.left + r.width / 2 → (updateFromPoint o r cx cy st).ry = 0) ∧
    (cx = r.left → cy = r.top →
      (updateFromPoint o r cx cy st).rx = o.maxRotation ∧
      (updateFromPoint o r cx cy st).ry = -o.maxRotation) := by
  have hh2 : 0 < r.height / 2 := by positivity
  have hw2 : 0 < r.width / 2 := by positivity
  have hrectx : |(cx - r.left) - r.width / 2| ≤ r.width / 2 := by
    rw [abs_le]
    constructor <;> linarith
  have hrecty : |(cy - r.top) - r.height / 2| ≤ r.height / 2 := by
    rw [abs_le]
    constructor <;> linarith
  have hdivx : |((cx - r.left) - r.width / 2) / (r.width / 2)| ≤ 1 := by
    rw [abs_div, abs_of_pos hw2]
    exact (div_le_one hw2).mpr hrectx
  have hdivy : |((cy - r.top) - r.height / 2) / (r.height / 2)| ≤ 1 := by
    rw [abs_div, abs_of_pos hh2]
    exact (div_le_one hh2).mpr hrecty
  refine ⟨?_, ?_, ?_, ?_, ?_⟩
  · show |((cy - r.top) - r.height / 2) / (r.height / 2) * (-o.maxRotation)|
      ≤ o.maxRotation
    rw [abs_mul, abs_neg, abs_of_nonneg hmax]
    calc |((cy - r.top) - r.height / 2) / (r.height / 2)| * o.maxRotation
        ≤ 1 * o.maxRotation := mul_le_mul_of_nonneg_right hdivy hmax
      _ = o.maxRotation := one_mul _
  · show |((cx - r.left) - r.width / 2) / (r.width / 2) * o.maxRotation|
      ≤ o.maxRotation
    rw [abs_mul, abs_of_nonneg hmax]
    calc |((cx - r.left) - r.width / 2) / (r.width / 2)| * o.maxRotation
        ≤ 1 * o.maxRotation := mul_le_mul_of_nonneg_right hdivx hmax
      _ = o.maxRotation := one_mul _
  · intro hc
    show ((cy - r.top) - r.height / 2) / (r.height / 2) * (-o.maxRotation) = 0
    rw [hc]
    ring_nf
  · intro hc
    show ((cx - r.left) - r.width / 2) / (r.width / 2) * o.maxRotation = 0
    rw [hc]
    ring_nf
  · intro hcx hcy
    have hwne : r.width ≠ 0 := ne_of_gt hw
    have hhne : r.height ≠ 0 := ne_of_gt hh
    constructor
    · show ((cy - r.top) - r.height / 2) / (r.height / 2) * (-o.maxRotation)
        = o.maxRotation
      rw [hcy]
      field_simp
      ring
    · show ((cx - r.left) - r.width / 2) / (r.width / 2) * o.maxRotation
        = -o.maxRotation
      rw [hcx]
      field_simp
      ring

/-- C7 witness: the default configuration on a `100 × 100` element with
the pointer at the top-left corner. -/
theorem updateFromPoint_rotation_spec_witness :
    |(updateFromPoint DEFAULTS ⟨0, 0, 100, 100⟩ 0 0 initHoloState).rx|
      ≤ DEFAULTS.maxRotation ∧
    |(updateFromPoint DEFAULTS ⟨0, 0, 100, 100⟩ 0 0 initHoloState).ry|
      ≤ DEFAULTS.maxRotation ∧
    ((0 : ℚ) = 0 + (100 : ℚ) / 2 →
      (updateFromPoint DEFAULTS ⟨0, 0, 100, 100⟩ 0 0 initHoloState).rx = 0) ∧
    ((0 : ℚ) = 0 + (100 : ℚ) / 2 →
      (updateFromPoint DEFAULTS ⟨0, 0, 100, 100⟩ 0 0 initHoloState).ry = 0) ∧
    ((0 : ℚ) = 0 → (0 : ℚ) = 0 →
      (updateFromPoint DEFAULTS ⟨0, 0, 100, 100⟩ 0 0 initHoloState).rx
          = DEFAULTS.maxRotation ∧
      (updateFromPoint DEFAULTS ⟨0, 0, 100, 100⟩ 0 0 initHoloState).ry
          = -DEFAULTS.maxRotation) :=
  updateFromPoint_rotation_spec DEFAULTS ⟨0, 0, 100, 100⟩ 0 0 initHoloState
    (by norm_num) (by norm_num) (by norm_num [DEFAULTS]) (by norm_num)
    (by norm_num) (by norm_num) (by norm_num)

/-- C9: the `HolographicEffect` constructor fails — with the guard's
error, returned before any instance state is built — exactly when the
target is not an `HTMLElement` (in particular on `null` and `undefined`),
and succeeds exactly on `HTMLElement` targets, yielding an instance whose
state is the freshly initialized one. -/
theorem construct_error_iff (el : JSValue) (opts : Opts) :
    (construct el opts
        = Except.error "HolographicEffect: first argument must be an HTMLElement"
      ↔ isHTMLElement el = false) ∧
    ((∃ eng, construct el opts = Except.ok eng) ↔ isHTMLElement el = true) ∧
    (∀ eng, construct el opts = Except.ok eng →
      eng = { el := elId el, opts := opts, state := initHoloState }) := by
  cases el <;>
    simp [construct, truthy, isHTMLElement, elId]

/-- C9 witness: construction on a concrete `HTMLElement` target. -/
theorem construct_error_iff_witness :
    (construct (JSValue.element 7) DEFAULTS
        = Except.error "HolographicEffect: first argument must be an HTMLElement"
      ↔ isHTMLElement (JSValue.element 7) = false) ∧
    ((∃ eng, construct (JSValue.element 7) DEFAULTS = Except.ok eng)
      ↔ isHTMLElement (JSValue.element 7) = true) ∧
    (∀ eng, construct (JSValue.element 7) DEFAULTS = Except.ok eng →
      eng = { el := elId (JSValue.element 7), opts := DEFAULTS,
              state := initHoloState }) :=
  construct_error_iff (JSValue.element 7) DEFAULTS

end Holo
